import Mathlib

set_option maxHeartbeats 1000000
set_option linter.unusedVariables false

/-!
Shallow embedding of the audios-hub core: the IndexedDB-backed object-store
layer (src/libs/indexedDBHelpers.ts), the audio recording session manager
(src/hooks/useAudioRecorder.ts), and the speech-synthesis session managers
(src/src/hooks/useTTS.ts and the useTextToSpeech variant).

Browser primitives are modelled explicitly:
  * an object store holds a list of records keyed by the `id` field
    (IndexedDB keyPath "id"); `IDBObjectStore.put` upserts by that key;
  * ephemeral object URLs (`URL.createObjectURL` / `revokeObjectURL`) are
    modelled as a list of live handle names carried in the manager state;
  * the asynchronous environment (device grants, network replies, store
    transaction success) is passed in as explicit environment values, so
    each manager method is a pure function from state and environment to
    an outcome (the user-visible toast) and a successor state.
-/

namespace AudiosHub

/-- Raw encoded audio bytes (the `ArrayBuffer` contents), as a byte list. -/
abbrev Bytes := List Nat

/-- RecordingItem (src/libs/indexedDBHelpers.ts). -/
structure RecordingItem where
  id : String
  audioUrl : String
  audioBinary : Bytes
  timestamp : Nat
  text : String
deriving DecidableEq

/-- TTSHistoryItem (src/libs/indexedDBHelpers.ts / src/src/hooks/useTTS.ts). -/
structure TTSHistoryItem where
  id : String
  text : String
  audioUrl : String
  audioBinary : Bytes
  timestamp : Nat
deriving DecidableEq

/-- TTSSettings as written by the useTTS hook: the caller always supplies
`id := 1` (src/src/hooks/useTTS.ts, saveAllSettings). The JS `number` speed
is modelled as a rational. -/
structure TTSSettings where
  id : Nat
  language : String
  speed : Rat
  text : String
  isOptimizeWithAI : Bool
deriving DecidableEq

/-- Settings record written by the useTextToSpeech variant, which omits the
speed field from the stored object literal. -/
structure TTSSettingsV2 where
  id : Nat
  language : String
  text : String
  isOptimizeWithAI : Bool
deriving DecidableEq

/-- `IDBObjectStore.put` on a store whose keyPath is the record key: replace
the record carrying the new record's key, or append when the key is absent.
(Real IndexedDB keeps records ordered by key; no claim here depends on the
traversal order of a store, so an association-list model suffices.) -/
def putByKey {α κ : Type} [DecidableEq κ] (key : α → κ) : List α → α → List α
  | [], x => [x]
  | y :: ys, x => if key y = key x then x :: ys else y :: putByKey key ys x

/-- addItem (src/libs/indexedDBHelpers.ts): open the configured database and
issue `store.put(item)` against the named store.  A database is a map from
store name to record list; only the named store changes. -/
def addItem {α : Type} (key : α → String) (db : String → List α)
    (storeName : String) (x : α) : String → List α :=
  fun n => if n = storeName then putByKey key (db n) x else db n

/-- Every record present after a put was the put record or was already in
the store. -/
theorem mem_putByKey {α κ : Type} [DecidableEq κ] (key : α → κ)
    {l : List α} {x z : α} (hz : z ∈ putByKey key l x) : z = x ∨ z ∈ l := by
  induction l with
  | nil => simpa [putByKey] using hz
  | cons y ys ih =>
      by_cases h : key y = key x
      · have hrw : putByKey key (y :: ys) x = x :: ys := by
          simp [putByKey, h]
        rw [hrw] at hz
        rcases List.mem_cons.mp hz with h1 | h1
        · exact Or.inl h1
        · exact Or.inr (List.mem_cons_of_mem _ h1)
      · have hrw : putByKey key (y :: ys) x = y :: putByKey key ys x := by
          simp [putByKey, h]
        rw [hrw] at hz
        rcases List.mem_cons.mp hz with h1 | h1
        · exact Or.inr (by simp [h1])
        · rcases ih h1 with h2 | h2
          · exact Or.inl h2
          · exact Or.inr (List.mem_cons_of_mem _ h2)

/-- After a put, the records under the put record's key are exactly the put
record, provided the store keys were distinct. -/
theorem filter_putByKey {α κ : Type} [DecidableEq κ] (key : α → κ)
    (l : List α) (x : α) (hnd : (l.map key).Nodup) :
    (putByKey key l x).filter (fun y => key y = key x) = [x] := by
  induction l with
  | nil =>
      simp [putByKey]
  | cons y ys ih =>
      by_cases h : key y = key x
      · have hrw : putByKey key (y :: ys) x = x :: ys := by
          simp [putByKey, h]
        rw [hrw, List.filter_cons]
        have hnotin : key x ∉ ys.map key := by
          simpa [h] using (List.nodup_cons.mp hnd).1
        have hnilf : ys.filter (fun y => decide (key y = key x)) = [] := by
          rw [List.filter_eq_nil_iff]
          intro a ha hk
          simp only [decide_eq_true_eq] at hk
          exact hnotin (hk ▸ List.mem_map_of_mem key ha)
        simp [hnilf]
      · have hrw : putByKey key (y :: ys) x = y :: putByKey key ys x := by
          simp [putByKey, h]
        rw [hrw, List.filter_cons]
        have hy : (decide (key y = key x)) = false := by simpa using h
        simp only [hy, Bool.false_eq_true, if_false]
        exact ih (List.nodup_cons.mp hnd).2

/-- A put preserves distinctness of store keys. -/
theorem nodup_keys_putByKey {α κ : Type} [DecidableEq κ] (key : α → κ)
    (l : List α) (x : α) (hnd : (l.map key).Nodup) :
    ((putByKey key l x).map key).Nodup := by
  induction l with
  | nil => simp [putByKey]
  | cons y ys ih =>
      rcases List.nodup_cons.mp hnd with ⟨hy, hys⟩
      by_cases h : key y = key x
      · have hrw : putByKey key (y :: ys) x = x :: ys := by
          simp [putByKey, h]
        rw [hrw, List.map_cons, List.nodup_cons]
        exact ⟨by simpa [h] using hy, hys⟩
      · have hrw : putByKey key (y :: ys) x = y :: putByKey key ys x := by
          simp [putByKey, h]
        rw [hrw, List.map_cons, List.nodup_cons]
        refine ⟨?_, ih hys⟩
        intro hmem
        rcases List.mem_map.mp hmem with ⟨z, hz, hkz⟩
        rcases mem_putByKey key hz with rfl | hz'
        · exact h hkz.symm
        · exact hy (hkz ▸ List.mem_map_of_mem key hz')

/-- The put record's key is always a key of the store after the put. -/
theorem key_mem_putByKey {α κ : Type} [DecidableEq κ] (key : α → κ)
    (l : List α) (x : α) : key x ∈ (putByKey key l x).map key := by
  induction l with
  | nil => simp [putByKey]
  | cons y ys ih =>
      by_cases h : key y = key x
      · simp [putByKey, h]
      · have hrw : putByKey key (y :: ys) x = y :: putByKey key ys x := by
          simp [putByKey, h]
        rw [hrw, List.map_cons]
        exact List.mem_cons_of_mem _ ih

/-- Putting a record whose key is already present does not change the number
of records: the put overwrites instead of appending. -/
theorem length_putByKey_of_mem {α κ : Type} [DecidableEq κ] (key : α → κ)
    (l : List α) (x : α) (hmem : key x ∈ l.map key) :
    (putByKey key l x).length = l.length := by
  induction l with
  | nil => simp at hmem
  | cons y ys ih =>
      by_cases h : key y = key x
      · have hrw : putByKey key (y :: ys) x = x :: ys := by
          simp [putByKey, h]
        simp [hrw]
      · have hrw : putByKey key (y :: ys) x = y :: putByKey key ys x := by
          simp [putByKey, h]
        have hmem' : key x ∈ ys.map key := by
          rcases List.mem_cons.mp hmem with h1 | h1
          · exact absurd h1.symm h
          · exact h1
        simp [hrw, ih hmem']

/-- C2: put then put under the same id leaves exactly one record under that
id, whose content is the second write — an upsert, not an error and not a
second record (the second put does not change the store's size).  Quantified
over the store name and over any well-keyed initial database (IndexedDB
guarantees at most one record per key). -/
theorem claim_C2_put_upsert (db : String → List RecordingItem)
    (storeName : String) (x1 x2 : RecordingItem) (hid : x1.id = x2.id)
    (hnd : ((db storeName).map RecordingItem.id).Nodup) :
    ((addItem RecordingItem.id (addItem RecordingItem.id db storeName x1)
        storeName x2 storeName).filter (fun y => y.id = x2.id) = [x2]) ∧
    (((addItem RecordingItem.id (addItem RecordingItem.id db storeName x1)
        storeName x2 storeName).map RecordingItem.id).Nodup) ∧
    ((addItem RecordingItem.id (addItem RecordingItem.id db storeName x1)
        storeName x2 storeName).length
      = (addItem RecordingItem.id db storeName x1 storeName).length) := by
  have hdb : addItem RecordingItem.id db storeName x1 storeName
      = putByKey RecordingItem.id (db storeName) x1 := by
    simp [addItem]
  have hdb2 : addItem RecordingItem.id (addItem RecordingItem.id db storeName x1)
      storeName x2 storeName
      = putByKey RecordingItem.id
          (putByKey RecordingItem.id (db storeName) x1) x2 := by
    simp [addItem]
  rw [hdb2, hdb]
  have hnd1 : ((putByKey RecordingItem.id (db storeName) x1).map
      RecordingItem.id).Nodup :=
    nodup_keys_putByKey RecordingItem.id (db storeName) x1 hnd
  refine ⟨filter_putByKey RecordingItem.id _ x2 hnd1,
    nodup_keys_putByKey RecordingItem.id _ x2 hnd1, ?_⟩
  apply length_putByKey_of_mem
  rw [← hid]
  exact key_mem_putByKey RecordingItem.id (db storeName) x1

/-- Concrete witness data for the persistence claims. -/
def emptyDB : String → List RecordingItem := fun _ => []

def recA : RecordingItem :=
  { id := "7", audioUrl := "url-a", audioBinary := [1, 2], timestamp := 7,
    text := "first" }

def recB : RecordingItem :=
  { id := "7", audioUrl := "url-b", audioBinary := [3], timestamp := 9,
    text := "second" }

/-- Witness for C2 at a concrete database and item pair. -/
theorem claim_C2_put_upsert_witness :
    ((addItem RecordingItem.id (addItem RecordingItem.id emptyDB "recordings" recA)
        "recordings" recB "recordings").filter (fun y => y.id = recB.id) = [recB]) ∧
    (((addItem RecordingItem.id (addItem RecordingItem.id emptyDB "recordings" recA)
        "recordings" recB "recordings").map RecordingItem.id).Nodup) ∧
    ((addItem RecordingItem.id (addItem RecordingItem.id emptyDB "recordings" recA)
        "recordings" recB "recordings").length
      = (addItem RecordingItem.id emptyDB "recordings" recA "recordings").length) :=
  claim_C2_put_upsert emptyDB "recordings" recA recB (by decide) (by decide)

/-! ### Settings persistence (useTTS saveSettings and the useTextToSpeech
variant) -/

/-- The inputs watched by the settings auto-save effect of useTTS
(src/src/hooks/useTTS.ts): language, speed, text, isOptimizeWithAI. -/
structure SettingsUpdate where
  language : String
  speed : Rat
  text : String
  isOptimizeWithAI : Bool
deriving DecidableEq

/-- The full settings record the auto-save effect builds from an update:
always the fixed id 1, every field replaced. -/
def settingsOf (u : SettingsUpdate) : TTSSettings :=
  { id := 1, language := u.language, speed := u.speed, text := u.text,
    isOptimizeWithAI := u.isOptimizeWithAI }

/-- saveSettings (src/src/hooks/useTTS.ts): `store.put(settings)` against the
ttsSettings store, keyed by the record's id field. -/
def saveSettings (store : List TTSSettings) (s : TTSSettings) :
    List TTSSettings :=
  putByKey TTSSettings.id store s

/-- saveAllSettings (the auto-save effect in src/src/hooks/useTTS.ts): builds
the record with id 1 and puts it. -/
def saveAllSettings (store : List TTSSettings) (u : SettingsUpdate) :
    List TTSSettings :=
  saveSettings store (settingsOf u)

/-- The inputs watched by the useTextToSpeech variant's auto-save (that
state object has no speed field). -/
structure SettingsUpdateV2 where
  language : String
  text : String
  isOptimizeWithAI : Bool
deriving DecidableEq

/-- The record literal stored by the useTextToSpeech variant. -/
def settingsV2Of (u : SettingsUpdateV2) : TTSSettingsV2 :=
  { id := 1, language := u.language, text := u.text,
    isOptimizeWithAI := u.isOptimizeWithAI }

/-- saveSettings in the useTextToSpeech variant: clearStore on ttsSettings
(silently) followed by addItem of the fixed-id record, i.e. a put into the
emptied store. -/
def saveSettingsV2 (store : List TTSSettingsV2) (u : SettingsUpdateV2) :
    List TTSSettingsV2 :=
  putByKey TTSSettingsV2.id [] (settingsV2Of u)

/-- Replaying any prefix of settings updates leaves the ttsSettings store
empty or holding a single auto-saved record. -/
theorem foldl_saveAllSettings_shape (us : List SettingsUpdate) :
    us.foldl saveAllSettings [] = []
      ∨ ∃ v : SettingsUpdate,
          us.foldl saveAllSettings [] = [settingsOf v] := by
  induction us using List.reverseRecOn with
  | nil => exact Or.inl rfl
  | append_singleton l a ih =>
      rw [List.foldl_append, List.foldl_cons, List.foldl_nil]
      rcases ih with h | ⟨v, h⟩
      · rw [h]
        exact Or.inr ⟨a, rfl⟩
      · rw [h]
        refine Or.inr ⟨a, ?_⟩
        simp [saveAllSettings, saveSettings, settingsOf, putByKey]

/-- C3: after any nonempty sequence of settings updates the ttsSettings
store holds exactly one record, at the fixed id 1, equal to the full record
built from the last update — for both the useTTS put-based saver and the
useTextToSpeech clear-then-add saver (the latter from any initial store). -/
theorem claim_C3_settings_singleton (us : List SettingsUpdate)
    (u : SettingsUpdate) (usV2 : List SettingsUpdateV2)
    (uV2 : SettingsUpdateV2) (initV2 : List TTSSettingsV2) :
    ((us ++ [u]).foldl saveAllSettings [] = [settingsOf u]) ∧
    ((settingsOf u).id = 1) ∧
    ((usV2 ++ [uV2]).foldl saveSettingsV2 initV2 = [settingsV2Of uV2]) ∧
    ((settingsV2Of uV2).id = 1) := by
  refine ⟨?_, rfl, ?_, rfl⟩
  · rw [List.foldl_append, List.foldl_cons, List.foldl_nil]
    rcases foldl_saveAllSettings_shape us with h | ⟨v, h⟩
    · rw [h]
      rfl
    · rw [h]
      simp [saveAllSettings, saveSettings, settingsOf, putByKey]
  · rw [List.foldl_append, List.foldl_cons, List.foldl_nil]
    rfl

/-! ### Recording session manager (src/hooks/useAudioRecorder.ts) -/

/-- The MediaRecorder lifecycle state the hook inspects. -/
inductive MRState
  | recording
  | inactive
deriving DecidableEq

/-- State owned by the useAudioRecorder hook.  `stream` is the acquired
device stream (streamRef), `recorder` the MediaRecorder and its state
(mediaRecorderRef), `chunks` the buffered encoded chunks (audioChunksRef;
only nonempty chunks are pushed), `recordings` the in-memory list, `store`
the content of the "recordings" object store, `liveUrls` the live ephemeral
object URLs, and `gumRequests` counts getUserMedia device requests. -/
structure RecorderManager where
  stream : Option Nat
  recorder : Option MRState
  chunks : List Bytes
  isRecording : Bool
  recordings : List RecordingItem
  store : List RecordingItem
  liveUrls : List String
  gumRequests : Nat
deriving DecidableEq

/-- cleanupRecording: stop and drop the stream tracks, drop the recorder,
leave the Recording state. -/
def cleanupRecording (m : RecorderManager) : RecorderManager :=
  { m with stream := none, recorder := none, isRecording := false }

/-- Result of the getUserMedia device request, as the hook discriminates it:
a granted stream, NotAllowedError, NotFoundError, or anything else. -/
inductive GUMResult
  | granted (streamId : Nat)
  | permissionDenied
  | deviceNotFound
  | otherError
deriving DecidableEq

/-- The user-visible outcome (toast) of startRecording. -/
inductive StartOutcome
  | alreadyInProgress
  | started
  | failedPermission
  | failedNotFound
  | failedOther
deriving DecidableEq

/-- startRecording: reject when already recording; otherwise request the
device, and on success reset the chunk buffer, hold the stream and a fresh
recorder, and enter the Recording state; on failure surface the specific
error and clean up. -/
def startRecording (m : RecorderManager) (gum : GUMResult) :
    StartOutcome × RecorderManager :=
  if m.isRecording then
    (.alreadyInProgress, m)
  else
    match gum with
    | .granted sid =>
        (.started,
          { m with
              gumRequests := m.gumRequests + 1
              stream := some sid
              chunks := []
              recorder := some .recording
              isRecording := true })
    | .permissionDenied =>
        (.failedPermission, cleanupRecording { m with gumRequests := m.gumRequests + 1 })
    | .deviceNotFound =>
        (.failedNotFound, cleanupRecording { m with gumRequests := m.gumRequests + 1 })
    | .otherError =>
        (.failedOther, cleanupRecording { m with gumRequests := m.gumRequests + 1 })

/-- The environment of a stopRecording call: the clock value, the fresh
object URL that createObjectURL would mint, and whether recorder.stop, the
blob-to-ArrayBuffer conversion and the store put succeed. -/
structure StopEnv where
  timestamp : Nat
  freshUrl : String
  stopOk : Bool
  bufferOk : Bool
  putOk : Bool
deriving DecidableEq

/-- The user-visible outcome (toast) of stopRecording. -/
inductive StopOutcome
  | noActiveRecording
  | stopFailed
  | emptyCapture
  | emptyBlob
  | bufferFailed
  | saved
  | saveFailed
deriving DecidableEq

/-- The finalized blob is the concatenation of the buffered chunks. -/
def blobBytes (chunks : List Bytes) : Bytes := chunks.flatten

/-- stopRecording: no-op error when no active recorder; otherwise finalize
the buffer.  Zero chunks is the empty-capture rejection; a zero-size blob and
a failed buffer conversion are rejected likewise; otherwise a RecordingItem
is built (id and label from the timestamp), its object URL is created, and
the item is put into the store — on put failure the URL is revoked and the
in-memory list is left alone.  Every branch past the guard runs
cleanupRecording before resolving. -/
def stopRecording (m : RecorderManager) (env : StopEnv) :
    StopOutcome × RecorderManager :=
  match m.recorder with
  | none => (.noActiveRecording, m)
  | some s =>
    if s = .inactive then
      (.noActiveRecording, m)
    else if env.stopOk = false then
      (.stopFailed, cleanupRecording m)
    else if m.chunks = [] then
      (.emptyCapture, cleanupRecording m)
    else if (blobBytes m.chunks).length = 0 then
      (.emptyBlob, cleanupRecording m)
    else if env.bufferOk = false then
      (.bufferFailed, cleanupRecording m)
    else
      let item : RecordingItem :=
        { id := toString env.timestamp
          audioUrl := env.freshUrl
          audioBinary := blobBytes m.chunks
          timestamp := env.timestamp
          text := "Rec " ++ toString env.timestamp }
      let m1 := { m with liveUrls := env.freshUrl :: m.liveUrls }
      if env.putOk then
        (.saved, cleanupRecording
          { m1 with
              store := putByKey RecordingItem.id m1.store item
              recordings := item :: m1.recordings })
      else
        (.saveFailed, cleanupRecording
          { m1 with liveUrls := m1.liveUrls.erase env.freshUrl })

/-- C1: stopping with zero captured chunks surfaces the empty-capture error,
stores nothing, leaves the in-memory recordings list and the live handles
unchanged, and still releases the stream, returning the manager to Idle. -/
theorem claim_C1_empty_capture (m : RecorderManager) (env : StopEnv)
    (hrec : m.recorder = some .recording) (hchunks : m.chunks = [])
    (hstop : env.stopOk = true) :
    (stopRecording m env).1 = .emptyCapture ∧
    (stopRecording m env).2.store = m.store ∧
    (stopRecording m env).2.recordings = m.recordings ∧
    (stopRecording m env).2.liveUrls = m.liveUrls ∧
    (stopRecording m env).2.stream = none ∧
    (stopRecording m env).2.recorder = none ∧
    (stopRecording m env).2.isRecording = false := by
  have h : stopRecording m env = (.emptyCapture, cleanupRecording m) := by
    rw [stopRecording, hrec]
    simp [hstop, hchunks]
  rw [h]
  exact ⟨rfl, rfl, rfl, rfl, rfl, rfl, rfl⟩

/-- A concrete manager mid-recording with an empty chunk buffer. -/
def managerFreshlyStarted : RecorderManager :=
  { stream := some 0, recorder := some .recording, chunks := [],
    isRecording := true, recordings := [recA], store := [recA],
    liveUrls := ["url-a"], gumRequests := 1 }

/-- A concrete stop environment where every platform step succeeds. -/
def stopEnvOk : StopEnv :=
  { timestamp := 42, freshUrl := "url-fresh", stopOk := true,
    bufferOk := true, putOk := true }

/-- Witness for C1 on a session stopped immediately after start. -/
theorem claim_C1_empty_capture_witness :
    (stopRecording managerFreshlyStarted stopEnvOk).1 = .emptyCapture ∧
    (stopRecording managerFreshlyStarted stopEnvOk).2.store
      = managerFreshlyStarted.store ∧
    (stopRecording managerFreshlyStarted stopEnvOk).2.recordings
      = managerFreshlyStarted.recordings ∧
    (stopRecording managerFreshlyStarted stopEnvOk).2.liveUrls
      = managerFreshlyStarted.liveUrls ∧
    (stopRecording managerFreshlyStarted stopEnvOk).2.stream = none ∧
    (stopRecording managerFreshlyStarted stopEnvOk).2.recorder = none ∧
    (stopRecording managerFreshlyStarted stopEnvOk).2.isRecording = false :=
  claim_C1_empty_capture managerFreshlyStarted stopEnvOk rfl rfl rfl

/-- C4: a second startRecording while already Recording is rejected with the
already-in-progress error and returns the manager state unchanged — same
stream, recorder and chunk buffer, and no new getUserMedia device request
(the request counter is part of the returned state, which is untouched). -/
theorem claim_C4_reentrancy_guard (m : RecorderManager) (gum : GUMResult)
    (h : m.isRecording = true) :
    startRecording m gum = (.alreadyInProgress, m) := by
  simp [startRecording, h]

/-- A concrete manager mid-recording with buffered chunks. -/
def managerMidRecording : RecorderManager :=
  { stream := some 3, recorder := some .recording, chunks := [[5, 6], [7]],
    isRecording := true, recordings := [], store := [],
    liveUrls := [], gumRequests := 1 }

/-- Witness for C4: the second start is rejected and changes nothing. -/
theorem claim_C4_reentrancy_guard_witness :
    startRecording managerMidRecording (.granted 9)
      = (.alreadyInProgress, managerMidRecording) :=
  claim_C4_reentrancy_guard managerMidRecording (.granted 9) rfl

/-- C5: when the put of a finalized recording fails, stopRecording still
releases the stream and leaves the Recording state, revokes the freshly
created object URL (the live-handle set is exactly what it was), reports the
save failure, and adds nothing to the in-memory list or the store. -/
theorem claim_C5_persistence_failure (m : RecorderManager) (env : StopEnv)
    (hrec : m.recorder = some .recording) (hchunks : m.chunks ≠ [])
    (hbytes : (blobBytes m.chunks).length ≠ 0)
    (hstop : env.stopOk = true) (hbuf : env.bufferOk = true)
    (hput : env.putOk = false) :
    (stopRecording m env).1 = .saveFailed ∧
    (stopRecording m env).2.recordings = m.recordings ∧
    (stopRecording m env).2.store = m.store ∧
    (stopRecording m env).2.liveUrls = m.liveUrls ∧
    (stopRecording m env).2.stream = none ∧
    (stopRecording m env).2.recorder = none ∧
    (stopRecording m env).2.isRecording = false := by
  have h : stopRecording m env
      = (.saveFailed, cleanupRecording
          { m with liveUrls := (env.freshUrl :: m.liveUrls).erase env.freshUrl }) := by
    rw [stopRecording, hrec]
    simp [hstop, hchunks, hbytes, hbuf, hput]
  rw [h]
  refine ⟨rfl, rfl, rfl, ?_, rfl, rfl, rfl⟩
  simp [cleanupRecording, List.erase_cons_head]

/-- Witness for C5: a finalized capture whose put fails. -/
theorem claim_C5_persistence_failure_witness :
    (stopRecording managerMidRecording
        { stopEnvOk with putOk := false }).1 = .saveFailed ∧
    (stopRecording managerMidRecording
        { stopEnvOk with putOk := false }).2.recordings
      = managerMidRecording.recordings ∧
    (stopRecording managerMidRecording
        { stopEnvOk with putOk := false }).2.store
      = managerMidRecording.store ∧
    (stopRecording managerMidRecording
        { stopEnvOk with putOk := false }).2.liveUrls
      = managerMidRecording.liveUrls ∧
    (stopRecording managerMidRecording
        { stopEnvOk with putOk := false }).2.stream = none ∧
    (stopRecording managerMidRecording
        { stopEnvOk with putOk := false }).2.recorder = none ∧
    (stopRecording managerMidRecording
        { stopEnvOk with putOk := false }).2.isRecording = false :=
  claim_C5_persistence_failure managerMidRecording
    { stopEnvOk with putOk := false } rfl (by decide) (by decide) rfl rfl rfl

/-! ### Speech-synthesis session manager (src/src/hooks/useTTS.ts and the
useTextToSpeech variant) -/

/-- State owned by the TTS hook: the settings inputs, the current-audio
pointer (`audioUrl` state, null or a handle), the in-memory history, the
loading flag, the ttsHistory object-store content, the live ephemeral
handles, and a count of synthesis network requests issued. -/
structure TTSManager where
  language : String
  speed : Rat
  text : String
  isOptimizeWithAI : Bool
  audioUrl : Option String
  history : List TTSHistoryItem
  isLoading : Bool
  historyStore : List TTSHistoryItem
  liveUrls : List String
  fetchCalls : Nat
deriving DecidableEq

/-- The environment of one generateSpeech call: the synthesis reply (none
models a network failure), whether the history write succeeds, the fresh id
(uuid), the fresh object URL, and the clock value. -/
structure GenEnv where
  fetchResult : Option Bytes
  putOk : Bool
  freshId : String
  freshUrl : String
  timestamp : Nat
deriving DecidableEq

/-- The user-visible outcome of generateSpeech. -/
inductive GenOutcome
  | emptyInput
  | networkFailed
  | saved
  | savedNotPersisted
deriving DecidableEq

/-- generateSpeech (src/src/hooks/useTTS.ts).  The guard is `if (!text)`:
only the empty string is rejected.  Past the guard the hook sets loading,
clears the current-audio pointer, and issues the network request; on a
reply it mints a history item and a fresh handle, tries the history write
(`store.add` of a fresh uuid key), and on write failure keeps the handle and
pointer but leaves the history list and store alone. -/
def generateSpeech (m : TTSManager) (text : String) (opt : Bool)
    (env : GenEnv) : GenOutcome × TTSManager :=
  if text = "" then
    (.emptyInput, m)
  else
    let m0 := { m with
      isLoading := true, audioUrl := none, fetchCalls := m.fetchCalls + 1 }
    match env.fetchResult with
    | none => (.networkFailed, { m0 with isLoading := false })
    | some bytes =>
      let item : TTSHistoryItem :=
        { id := env.freshId, text := text, audioUrl := env.freshUrl,
          audioBinary := bytes, timestamp := env.timestamp }
      let m1 := { m0 with liveUrls := env.freshUrl :: m0.liveUrls }
      if env.putOk ∧ ¬ m1.historyStore.any (fun y => y.id = item.id) then
        (.saved, { m1 with
            historyStore := m1.historyStore ++ [item]
            history := item :: m1.history
            audioUrl := some env.freshUrl
            isLoading := false })
      else
        (.savedNotPersisted, { m1 with
            audioUrl := some env.freshUrl
            isLoading := false })

/-- `String.prototype.trim`: strip leading and trailing whitespace. -/
def jsTrim (s : String) : String :=
  String.mk (((s.data.dropWhile Char.isWhitespace).reverse.dropWhile
    Char.isWhitespace).reverse)

/-- generateSpeech in the useTextToSpeech variant: the guard is
`if (!text.trim())`, so whitespace-only input is rejected too; the history
write there goes through the put-based addItem helper and the item id is the
timestamp string. -/
def generateSpeechV2 (m : TTSManager) (text : String) (opt : Bool)
    (env : GenEnv) : GenOutcome × TTSManager :=
  if jsTrim text = "" then
    (.emptyInput, m)
  else
    let m0 := { m with
      isLoading := true, audioUrl := none, fetchCalls := m.fetchCalls + 1 }
    match env.fetchResult with
    | none => (.networkFailed, { m0 with isLoading := false })
    | some bytes =>
      let item : TTSHistoryItem :=
        { id := toString env.timestamp, text := text, audioUrl := env.freshUrl,
          audioBinary := bytes, timestamp := env.timestamp }
      let m1 := { m0 with liveUrls := env.freshUrl :: m0.liveUrls }
      if env.putOk then
        (.saved, { m1 with
            historyStore := putByKey TTSHistoryItem.id m1.historyStore item
            history := item :: m1.history
            audioUrl := some env.freshUrl
            isLoading := false })
      else
        (.savedNotPersisted, { m1 with
            audioUrl := some env.freshUrl
            isLoading := false })

/-- C6: when synthesis succeeds but the history write fails, the audio is
still made playable — the current-audio pointer is set to the fresh handle
and the handle stays live — while the in-memory history list and the store
are unchanged: a partial failure. -/
theorem claim_C6_partial_failure (m : TTSManager) (text : String)
    (opt : Bool) (env : GenEnv) (htext : text ≠ "")
    (hfetch : env.fetchResult.isSome) (hput : env.putOk = false) :
    (generateSpeech m text opt env).1 = .savedNotPersisted ∧
    (generateSpeech m text opt env).2.audioUrl = some env.freshUrl ∧
    env.freshUrl ∈ (generateSpeech m text opt env).2.liveUrls ∧
    (generateSpeech m text opt env).2.history = m.history ∧
    (generateSpeech m text opt env).2.historyStore = m.historyStore ∧
    (generateSpeech m text opt env).2.isLoading = false := by
  rcases Option.isSome_iff_exists.mp hfetch with ⟨bytes, hbytes⟩
  rw [generateSpeech]
  simp only [if_neg htext, hbytes, hput]
  simp

/-- A concrete TTS manager holding one history item. -/
def ttsSample : TTSManager :=
  { language := "en", speed := 1, text := "hello",
    isOptimizeWithAI := false, audioUrl := some "url-old",
    history := [{ id := "a", text := "hi", audioUrl := "url-old",
                  audioBinary := [1], timestamp := 5 }],
    isLoading := false,
    historyStore := [{ id := "a", text := "hi", audioUrl := "url-old",
                       audioBinary := [1], timestamp := 5 }],
    liveUrls := ["url-old"], fetchCalls := 0 }

/-- A concrete environment where synthesis succeeds but the write fails. -/
def genEnvPutFails : GenEnv :=
  { fetchResult := some [9, 9], putOk := false, freshId := "b",
    freshUrl := "url-new", timestamp := 6 }

/-- Witness for C6. -/
theorem claim_C6_partial_failure_witness :
    (generateSpeech ttsSample "hello" false genEnvPutFails).1
      = .savedNotPersisted ∧
    (generateSpeech ttsSample "hello" false genEnvPutFails).2.audioUrl
      = some genEnvPutFails.freshUrl ∧
    genEnvPutFails.freshUrl
      ∈ (generateSpeech ttsSample "hello" false genEnvPutFails).2.liveUrls ∧
    (generateSpeech ttsSample "hello" false genEnvPutFails).2.history
      = ttsSample.history ∧
    (generateSpeech ttsSample "hello" false genEnvPutFails).2.historyStore
      = ttsSample.historyStore ∧
    (generateSpeech ttsSample "hello" false genEnvPutFails).2.isLoading
      = false :=
  claim_C6_partial_failure ttsSample "hello" false genEnvPutFails
    (by decide) (by decide) rfl

/-- An environment whose network request fails. -/
def genEnvNetFails : GenEnv :=
  { fetchResult := none, putOk := true, freshId := "b",
    freshUrl := "url-new", timestamp := 6 }

/-- C9 counterexample: on the whitespace-only input " " the useTTS
generateSpeech does NOT reject before the network call — the request counter
advances and the current-audio pointer is reset to null — because its guard
`if (!text)` only catches the empty string. -/
theorem claim_C9_counterexample :
    (" " ≠ "") ∧
    (generateSpeech ttsSample " " false genEnvNetFails).2.fetchCalls
      = ttsSample.fetchCalls + 1 ∧
    (generateSpeech ttsSample " " false genEnvNetFails).2.audioUrl
      ≠ ttsSample.audioUrl := by
  refine ⟨by decide, ?_, ?_⟩ <;> decide

/-- C9 amended: the useTTS generateSpeech rejects exactly the empty string
— immediately, before any network call, leaving the whole manager state
(loading flag, history, current-audio pointer) untouched — while the
useTextToSpeech variant rejects every input whose trim is empty, with the
same no-effect guarantee. -/
theorem claim_C9_empty_input_rejection :
    (∀ (m : TTSManager) (opt : Bool) (env : GenEnv),
      generateSpeech m "" opt env = (.emptyInput, m)) ∧
    (∀ (m : TTSManager) (text : String) (opt : Bool) (env : GenEnv),
      jsTrim text = "" → generateSpeechV2 m text opt env = (.emptyInput, m)) := by
  constructor
  · intro m opt env
    rw [generateSpeech]
    simp
  · intro m text opt env htrim
    rw [generateSpeechV2]
    simp [htrim]

/-- Witness for the amended C9 at the empty string and a whitespace-only
string. -/
theorem claim_C9_empty_input_rejection_witness :
    generateSpeech ttsSample "" false genEnvNetFails
      = (.emptyInput, ttsSample) ∧
    generateSpeechV2 ttsSample "  " false genEnvNetFails
      = (.emptyInput, ttsSample) :=
  ⟨claim_C9_empty_input_rejection.1 ttsSample false genEnvNetFails,
    claim_C9_empty_input_rejection.2 ttsSample "  " false genEnvNetFails
      (by decide)⟩

/-! ### Loading: index fallback and timestamp ordering -/

/-- Stable insertion of `x` after every element whose timestamp is at least
`ts x` — the descending order induced by the comparator
`(a, b) => b.timestamp - a.timestamp`. -/
def insertTsDesc {α : Type} (ts : α → Nat) (x : α) : List α → List α
  | [] => [x]
  | y :: ys => if ts x ≤ ts y then y :: insertTsDesc ts x ys else x :: y :: ys

/-- `Array.prototype.sort` under the comparator
`(a, b) => b.timestamp - a.timestamp`: a stable sort placing larger
timestamps first. -/
def sortTsDesc {α : Type} (ts : α → Nat) : List α → List α
  | [] => []
  | x :: xs => insertTsDesc ts x (sortTsDesc ts xs)

/-- Stable insertion for ascending key order, as an index getAll yields. -/
def insertTsAsc {α : Type} (ts : α → Nat) (x : α) : List α → List α
  | [] => [x]
  | y :: ys => if ts y ≤ ts x then y :: insertTsAsc ts x ys else x :: y :: ys

/-- Records in ascending index-key order. -/
def sortTsAsc {α : Type} (ts : α → Nat) : List α → List α
  | [] => []
  | x :: xs => insertTsAsc ts x (sortTsAsc ts xs)

/-- An IndexedDB object store as seen by loadItems: its records and the
names of the indexes defined on it; `ts` below is the key function of the
timestamp index where one exists. -/
structure ObjectStore (α : Type) where
  records : List α
  indexNames : List String

/-- Failure modes of a store request. -/
inductive DBError
  | notFound
  | requestFailed
deriving DecidableEq

/-- `IDBObjectStore.index(idx).getAll()`: all records in index-key order,
or a NotFoundError when the named index does not exist on the store. -/
def storeIndexGetAll {α : Type} (ts : α → Nat) (s : ObjectStore α)
    (idx : String) : Except DBError (List α) :=
  if s.indexNames.contains idx then .ok (sortTsAsc ts s.records)
  else .error .notFound

/-- loadItems (src/libs/indexedDBHelpers.ts): when an index name is given
and the store has that index, read through the index; otherwise fall back
to `store.getAll()`, the plain unordered scan. -/
def loadItems {α : Type} (ts : α → Nat) (s : ObjectStore α)
    (indexName : Option String) : Except DBError (List α) :=
  match indexName with
  | some idx =>
      if s.indexNames.contains idx then storeIndexGetAll ts s idx
      else .ok s.records
  | none => .ok s.records

/-- The earlier loadItems revision (the helper copy bundled with
src/src/api.ts): reads through the named index unconditionally, so a store
lacking the index makes the call fail with NotFoundError.  The
src/libs/indexedDBHelpers.ts revision above supersedes it; kept here for
the record, no claim rests on it. -/
def loadItemsEarly {α : Type} (ts : α → Nat) (s : ObjectStore α)
    (idx : String) : Except DBError (List α) :=
  storeIndexGetAll ts s idx

/-- C7: loadItems against a store lacking the requested index returns the
complete record set via the unordered full-store fallback instead of
failing. -/
theorem claim_C7_index_fallback {α : Type} (ts : α → Nat)
    (s : ObjectStore α) (idx : String)
    (h : s.indexNames.contains idx = false) :
    loadItems ts s (some idx) = .ok s.records := by
  rw [loadItems]
  simp only [h, Bool.false_eq_true, if_false]

/-- A concrete store with records but no indexes. -/
def storeNoIndex : ObjectStore RecordingItem :=
  { records := [recA, recB], indexNames := [] }

/-- Witness for C7: the timestamp index is absent, the scan still returns
everything. -/
theorem claim_C7_index_fallback_witness :
    loadItems RecordingItem.timestamp storeNoIndex (some "timestamp")
      = .ok storeNoIndex.records :=
  claim_C7_index_fallback RecordingItem.timestamp storeNoIndex "timestamp"
    (by decide)

/-- Inserting keeps the element count: the insert is a permutation. -/
theorem perm_insertTsDesc {α : Type} (ts : α → Nat) (x : α) (l : List α) :
    (insertTsDesc ts x l).Perm (x :: l) := by
  induction l with
  | nil => simp [insertTsDesc]
  | cons y ys ih =>
      by_cases h : ts x ≤ ts y
      · rw [insertTsDesc, if_pos h]
        exact ((ih.cons y).trans (List.Perm.swap x y ys))
      · rw [insertTsDesc, if_neg h]

/-- The descending sort permutes its input. -/
theorem perm_sortTsDesc {α : Type} (ts : α → Nat) (l : List α) :
    (sortTsDesc ts l).Perm l := by
  induction l with
  | nil => simp [sortTsDesc]
  | cons x xs ih =>
      rw [sortTsDesc]
      exact (perm_insertTsDesc ts x (sortTsDesc ts xs)).trans (ih.cons x)

/-- Inserting into a weakly descending list keeps it weakly descending. -/
theorem pairwise_insertTsDesc {α : Type} (ts : α → Nat) (x : α)
    {l : List α} (h : l.Pairwise (fun a b => ts b ≤ ts a)) :
    (insertTsDesc ts x l).Pairwise (fun a b => ts b ≤ ts a) := by
  induction l with
  | nil => simp [insertTsDesc]
  | cons y ys ih =>
      rcases List.pairwise_cons.mp h with ⟨hy, hys⟩
      by_cases hxy : ts x ≤ ts y
      · rw [insertTsDesc, if_pos hxy]
        refine List.pairwise_cons.mpr ⟨?_, ih hys⟩
        intro z hz
        have hz2 : z ∈ x :: ys := (perm_insertTsDesc ts x ys).mem_iff.mp hz
        rcases List.mem_cons.mp hz2 with rfl | hz'
        · exact hxy
        · exact hy z hz'
      · rw [insertTsDesc, if_neg hxy]
        have hyx : ts y ≤ ts x := Nat.le_of_lt (Nat.lt_of_not_le hxy)
        refine List.pairwise_cons.mpr ⟨?_, h⟩
        intro z hz
        rcases List.mem_cons.mp hz with rfl | hz'
        · exact hyx
        · exact Nat.le_trans (hy z hz') hyx

/-- The descending sort is weakly descending in timestamps. -/
theorem pairwise_sortTsDesc {α : Type} (ts : α → Nat) (l : List α) :
    (sortTsDesc ts l).Pairwise (fun a b => ts b ≤ ts a) := by
  induction l with
  | nil => simp [sortTsDesc]
  | cons x xs ih =>
      rw [sortTsDesc]
      exact pairwise_insertTsDesc ts x ih

/-- Regenerate an item's ephemeral handle from its persisted bytes
(`audioUrl: URL.createObjectURL(new Blob([item.audioBinary]))`); the handle
minted is abstracted as a function of the item. -/
def regenerateUrl (mkUrl : RecordingItem → String) (it : RecordingItem) :
    RecordingItem :=
  { it with audioUrl := mkUrl it }

/-- The load pipeline of initializeApp (src/hooks/useAudioRecorder.ts) and
loadHistory (src/src/hooks/useTTS.ts): map a fresh handle over the loaded
records, then sort by timestamp descending. -/
def processLoaded (mkUrl : RecordingItem → String)
    (items : List RecordingItem) : List RecordingItem :=
  sortTsDesc RecordingItem.timestamp (items.map (regenerateUrl mkUrl))

/-- C8: for persisted items with pairwise distinct timestamps, the load
pipeline yields the complete set (a permutation of the loaded records,
with regenerated handles) in strictly descending timestamp order, whatever
order the store returned them in. -/
theorem claim_C8_descending_order (mkUrl : RecordingItem → String)
    (items : List RecordingItem)
    (hnd : (items.map RecordingItem.timestamp).Nodup) :
    (processLoaded mkUrl items).Pairwise
      (fun a b => b.timestamp < a.timestamp) ∧
    (processLoaded mkUrl items).Perm (items.map (regenerateUrl mkUrl)) := by
  have hperm : (processLoaded mkUrl items).Perm
      (items.map (regenerateUrl mkUrl)) :=
    perm_sortTsDesc RecordingItem.timestamp (items.map (regenerateUrl mkUrl))
  refine ⟨?_, hperm⟩
  have hge : (processLoaded mkUrl items).Pairwise
      (fun a b => b.timestamp ≤ a.timestamp) :=
    pairwise_sortTsDesc RecordingItem.timestamp (items.map (regenerateUrl mkUrl))
  have hts : (items.map (regenerateUrl mkUrl)).map RecordingItem.timestamp
      = items.map RecordingItem.timestamp := by
    rw [List.map_map]
    rfl
  have hnd2 : ((items.map (regenerateUrl mkUrl)).map
      RecordingItem.timestamp).Nodup := by
    rw [hts]
    exact hnd
  have hne0 : (items.map (regenerateUrl mkUrl)).Pairwise
      (fun a b => a.timestamp ≠ b.timestamp) :=
    List.pairwise_map.mp hnd2
  have hne : (processLoaded mkUrl items).Pairwise
      (fun a b => a.timestamp ≠ b.timestamp) :=
    (hperm.pairwise_iff (fun hab => Ne.symm hab)).mpr hne0
  have hand := List.Pairwise.and hge hne
  exact hand.imp (fun h => Nat.lt_of_le_of_ne h.1 (fun he => h.2 he.symm))

/-- Concrete persisted records in shuffled timestamp order. -/
def shuffledItems : List RecordingItem :=
  [{ id := "1", audioUrl := "", audioBinary := [1], timestamp := 10,
     text := "one" },
   { id := "2", audioUrl := "", audioBinary := [2], timestamp := 30,
     text := "two" },
   { id := "3", audioUrl := "", audioBinary := [3], timestamp := 20,
     text := "three" }]

/-- Witness for C8 on the shuffled records. -/
theorem claim_C8_descending_order_witness :
    (processLoaded RecordingItem.id shuffledItems).Pairwise
      (fun a b => b.timestamp < a.timestamp) ∧
    (processLoaded RecordingItem.id shuffledItems).Perm
      (shuffledItems.map (regenerateUrl RecordingItem.id)) :=
  claim_C8_descending_order RecordingItem.id shuffledItems (by decide)

/-! ### Deleting history items and clearing history (C10) -/

/-- deleteHistoryItem (src/src/hooks/useTTS.ts): guard the empty id; find
the item in the in-memory history and revoke its handle before the store
delete; when the store delete succeeds, filter the store and the list, and
null the current-audio pointer when it pointed at the deleted item's
handle.  When the store delete fails, the state updates are skipped. -/
def deleteHistoryItem (m : TTSManager) (id : String) (deleteOk : Bool) :
    TTSManager :=
  if id = "" then m
  else
    let found := m.history.find? (fun it => it.id = id)
    let m1 :=
      match found with
      | some it =>
          if it.audioUrl ≠ "" then
            { m with liveUrls := m.liveUrls.erase it.audioUrl }
          else m
      | none => m
    if deleteOk then
      let m2 := { m1 with
        historyStore := m1.historyStore.filter (fun x => ¬ x.id = id)
        history := m1.history.filter (fun x => ¬ x.id = id) }
      match found with
      | some it =>
          if m.audioUrl = some it.audioUrl then { m2 with audioUrl := none }
          else m2
      | none => m2
    else m1

/-- clearAllHistory (src/src/hooks/useTTS.ts): revoke every history item's
handle, then clear the store; when the clear succeeds, empty the in-memory
list and null the current-audio pointer. -/
def clearAllHistory (m : TTSManager) (clearOk : Bool) : TTSManager :=
  let m1 := { m with
    liveUrls := m.history.foldl
      (fun acc it => if it.audioUrl ≠ "" then acc.erase it.audioUrl else acc)
      m.liveUrls }
  if clearOk then
    { m1 with history := [], historyStore := [], audioUrl := none }
  else m1

/-- C10: a successful deleteHistoryItem whose deleted item's handle equals
the current-audio pointer nulls the pointer, and a successful
clearAllHistory always nulls it — the pointer never keeps referencing the
revoked handle of a deleted item. -/
theorem claim_C10_pointer_cleared (m : TTSManager) (id : String)
    (it : TTSHistoryItem) (hid : id ≠ "")
    (hfind : m.history.find? (fun x => x.id = id) = some it)
    (hptr : m.audioUrl = some it.audioUrl) :
    (deleteHistoryItem m id true).audioUrl = none ∧
    (∀ m2 : TTSManager, (clearAllHistory m2 true).audioUrl = none) := by
  constructor
  · rw [deleteHistoryItem]
    simp only [if_neg hid, hfind, hptr, if_true]
  · intro m2
    rw [clearAllHistory]
    simp

/-- A concrete manager whose current audio is the history item b. -/
def ttsSampleB : TTSManager :=
  { language := "en", speed := 1, text := "",
    isOptimizeWithAI := false, audioUrl := some "url-b",
    history := [{ id := "b", text := "bye", audioUrl := "url-b",
                  audioBinary := [2], timestamp := 8 }],
    isLoading := false,
    historyStore := [{ id := "b", text := "bye", audioUrl := "url-b",
                       audioBinary := [2], timestamp := 8 }],
    liveUrls := ["url-b"], fetchCalls := 0 }

/-- Witness for C10: deleting the item the pointer refers to nulls it; so
does clearing. -/
theorem claim_C10_pointer_cleared_witness :
    (deleteHistoryItem ttsSampleB "b" true).audioUrl = none ∧
    (∀ m2 : TTSManager, (clearAllHistory m2 true).audioUrl = none) :=
  claim_C10_pointer_cleared ttsSampleB "b"
    { id := "b", text := "bye", audioUrl := "url-b", audioBinary := [2],
      timestamp := 8 }
    (by decide) (by decide) (by decide)

end AudiosHub
